import Mathlib

/-!
Verification of the piconfc wire-protocol frame codec (src/piconfc_I2C.c) and
NDEF tag-content codec (src/piconfc_NDEF.c).

Byte buffers are modelled as `List Nat`, entries being bytes (< 256); machine
arithmetic on `uint8_t` / `uint16_t` values is made explicit with `% 256` /
`% 65536` at the points where the C code stores into such a variable.  An
indexed read `buffer[i]` is modelled as `List.getD buffer i 0`; an index past
the end of the list yields 0 (the C code performs such reads on unspecified
memory, which is the subject of claim C4).
-/

/-- Reads `buffer[6 + j]` past a six-byte literal frame header. -/
theorem getD_cons6 (a b c d e f : Nat) (rest : List Nat) (j : Nat) (dflt : Nat) :
    (a :: b :: c :: d :: e :: f :: rest).getD (6 + j) dflt = rest.getD j dflt := by
  rw [show 6 + j = (((((j + 1) + 1) + 1) + 1) + 1) + 1 by omega]
  rw [List.getD_cons_succ, List.getD_cons_succ, List.getD_cons_succ,
    List.getD_cons_succ, List.getD_cons_succ, List.getD_cons_succ]

/-- Collecting the first `l.length` positions of `l ++ suf` recovers `l`. -/
theorem range_map_getD_append (l suf : List Nat) :
    (List.range l.length).map (fun j => (l ++ suf).getD j 0) = l := by
  apply List.ext_getElem
  · simp
  · intro i h1 h2
    simp only [List.getElem_map, List.getElem_range]
    rw [List.getD_append _ _ _ _ h2, List.getD_eq_getElem _ _ h2]

/-- Embedding of `piconfc_I2C_writecommand` (src/src/piconfc_I2C.c, lines
107-138): builds the command frame `00 00 FF LEN LCS D4 <payload> DCS 00`
with `LEN = cmdlen + 1`, `LCS = ~LEN + 1` and `DCS = ~(0xD4 + sum cmd) + 1`,
each stored into a `uint8_t`, hence the explicit `% 256`. -/
def piconfc_I2C_writecommand (cmd : List Nat) : List Nat :=
  let data_len := (cmd.length + 1) % 256
  let checksum_val := cmd.sum % 256
  0x00 :: 0x00 :: 0xFF :: data_len :: (256 - data_len) % 256 :: 0xD4 ::
    (cmd ++ [(256 - (0xD4 + checksum_val) % 256) % 256, 0x00])

/-- Embedding of `piconfc_I2C_parseresponse` (src/src/piconfc_I2C.c, lines
140-179), applied to the raw frame bytes delivered by `piconfc_I2C_readdata`.
The first component is the C return value: 0 on any validation failure, and
`len - 1` computed in `uint8_t` (hence `(len + 255) % 256`) on success.  The
second component models the bytes `buffer[0] .. buffer[len-2]` left by the
in-place compaction loop, i.e. the extracted payload; per the error-handling
contract it is only meaningful on success and is rendered `[]` on the three
failure paths. -/
def piconfc_I2C_parseresponse (buffer : List Nat) : Nat × List Nat :=
  if ¬(buffer.getD 0 0 = 0x00 ∧ buffer.getD 1 0 = 0x00 ∧ buffer.getD 2 0 = 0xFF) then
    (0, [])
  else
    let len := buffer.getD 3 0
    if (len + buffer.getD 4 0) % 256 ≠ 0 then (0, [])
    else
      let direction := buffer.getD 5 0
      let data := (List.range (len - 1)).map (fun j => buffer.getD (6 + j) 0)
      if (direction + data.sum + buffer.getD (5 + len) 0) % 256 ≠ 0 then (0, [])
      else ((len + 255) % 256, data)

/-- Validity of a response frame as the specification states it: the
preamble/start sequence `00 00 FF`, the length checksum `(len + lcs) % 256 = 0`,
and the data checksum: the direction byte plus the `len` bytes that follow it
(the last of which is the checksum byte itself) summing to 0 mod 256. -/
def responseValid (buffer : List Nat) : Prop :=
  buffer.getD 0 0 = 0x00 ∧ buffer.getD 1 0 = 0x00 ∧ buffer.getD 2 0 = 0xFF ∧
  (buffer.getD 3 0 + buffer.getD 4 0) % 256 = 0 ∧
  (buffer.getD 5 0 +
    ((List.range (buffer.getD 3 0)).map (fun i => buffer.getD (6 + i) 0)).sum) % 256 = 0

instance responseValid.decidable (buffer : List Nat) : Decidable (responseValid buffer) := by
  unfold responseValid
  infer_instance

/-- C1: frame round trip.  For every payload of length 1 to 250, building the
command frame `00 00 FF LEN LCS D4 <payload> DCS 00` (with `LEN = len + 1`,
`LCS = (-LEN) & 0xFF`, `DCS = (-(0xD4 + sum payload)) & 0xFF`) and running the
response validator on that byte sequence succeeds, recovering the payload
bytes unchanged and returning data length `len payload`. -/
theorem frame_roundtrip (cmd : List Nat) (h1 : 1 ≤ cmd.length) (h2 : cmd.length ≤ 250) :
    piconfc_I2C_parseresponse (piconfc_I2C_writecommand cmd) = (cmd.length, cmd) := by
  have hdl : (cmd.length + 1) % 256 = cmd.length + 1 := Nat.mod_eq_of_lt (by omega)
  have g0 : (piconfc_I2C_writecommand cmd).getD 0 0 = 0 := rfl
  have g1 : (piconfc_I2C_writecommand cmd).getD 1 0 = 0 := rfl
  have g2 : (piconfc_I2C_writecommand cmd).getD 2 0 = 255 := rfl
  have g3 : (piconfc_I2C_writecommand cmd).getD 3 0 = (cmd.length + 1) % 256 := rfl
  have g4 : (piconfc_I2C_writecommand cmd).getD 4 0 = (256 - (cmd.length + 1) % 256) % 256 := rfl
  have g5 : (piconfc_I2C_writecommand cmd).getD 5 0 = 0xD4 := rfl
  have g6 : ∀ j, (piconfc_I2C_writecommand cmd).getD (6 + j) 0 =
      (cmd ++ [(256 - (0xD4 + cmd.sum % 256) % 256) % 256, 0x00]).getD j 0 :=
    fun j => getD_cons6 0x00 0x00 0xFF ((cmd.length + 1) % 256)
      ((256 - (cmd.length + 1) % 256) % 256) 0xD4 _ j 0
  simp only [piconfc_I2C_parseresponse, g0, g1, g2, g3, g4, g5, hdl, Nat.add_sub_cancel]
  rw [show 5 + (cmd.length + 1) = 6 + cmd.length by omega]
  simp only [g6]
  rw [range_map_getD_append cmd [(256 - (0xD4 + cmd.sum % 256) % 256) % 256, 0x00]]
  have gdcs : (cmd ++ [(256 - (0xD4 + cmd.sum % 256) % 256) % 256, 0x00]).getD cmd.length 0 =
      (256 - (0xD4 + cmd.sum % 256) % 256) % 256 := by
    rw [List.getD_append_right _ _ _ _ (Nat.le_refl _), Nat.sub_self]
    rfl
  rw [gdcs]
  split_ifs with hc1 hc2 hc3
  · exact absurd (show (cmd.length + 1 + (256 - (cmd.length + 1)) % 256) % 256 = 0 by omega) hc2
  · exact absurd
      (show (212 + cmd.sum + (256 - (212 + cmd.sum % 256) % 256) % 256) % 256 = 0 by omega) hc3
  · simp only [Prod.mk.injEq]
    exact ⟨by omega, trivial⟩
  · exact absurd ⟨trivial, trivial, trivial⟩ hc1

/-- Witness for `frame_roundtrip` at the concrete payload `[0x02]`. -/
theorem frame_roundtrip_witness :
    1 ≤ ([0x02] : List Nat).length ∧ ([0x02] : List Nat).length ≤ 250 ∧
    piconfc_I2C_parseresponse (piconfc_I2C_writecommand [0x02]) = (1, [0x02]) :=
  ⟨by decide, by decide, frame_roundtrip [0x02] (by decide) (by decide)⟩

/-- C9: `parse_response` returns 0 on every validation failure (bad
preamble/start sequence, length-checksum sum not 0 mod 256, or data-checksum
sum not 0 mod 256) and on success returns `len - 1` — computed in `uint8_t`,
hence `(len + 255) % 256` — the payload length excluding the leading
indicator byte.  Stated for frames declaring a nonzero length byte, which
every real response does (the protocol's minimum response carries a
command-echo and a status byte). -/
theorem parseresponse_failure_and_success_values (buffer : List Nat)
    (hlen : 1 ≤ buffer.getD 3 0) :
    (piconfc_I2C_parseresponse buffer).1 =
      if responseValid buffer then (buffer.getD 3 0 + 255) % 256 else 0 := by
  obtain ⟨n, hn⟩ : ∃ n, buffer.getD 3 0 = n + 1 := ⟨buffer.getD 3 0 - 1, by omega⟩
  have hsplit : ((List.range (n + 1)).map (fun i => buffer.getD (6 + i) 0)).sum
      = ((List.range n).map (fun j => buffer.getD (6 + j) 0)).sum
        + buffer.getD (5 + (n + 1)) 0 := by
    rw [List.range_succ, List.map_append, List.sum_append,
      show 5 + (n + 1) = 6 + n by omega]
    simp
  simp only [piconfc_I2C_parseresponse, hn, Nat.add_sub_cancel]
  by_cases hpre : buffer.getD 0 0 = 0 ∧ buffer.getD 1 0 = 0 ∧ buffer.getD 2 0 = 255
  · rw [if_neg (not_not_intro hpre)]
    by_cases hlcs : (n + 1 + buffer.getD 4 0) % 256 = 0
    · rw [if_neg (not_not_intro hlcs)]
      by_cases hdata : (buffer.getD 5 0
          + ((List.range n).map (fun j => buffer.getD (6 + j) 0)).sum
          + buffer.getD (5 + (n + 1)) 0) % 256 = 0
      · rw [if_neg (not_not_intro hdata)]
        rw [if_pos ⟨hpre.1, hpre.2.1, hpre.2.2,
          by rw [hn]; exact hlcs,
          by rw [hn, hsplit]; omega⟩]
      · rw [if_pos hdata]
        rw [if_neg (fun hv => hdata (by
          have h5 := hv.2.2.2.2
          rw [hn, hsplit] at h5
          omega))]
    · rw [if_pos (fun h => hlcs h)]
      rw [if_neg (fun hv => hlcs (by
        have h4 := hv.2.2.2.1
        rw [hn] at h4
        exact h4))]
  · rw [if_pos hpre]
    rw [if_neg (fun hv => hpre ⟨hv.1, hv.2.1, hv.2.2.1⟩)]

/-- Witness for `parseresponse_failure_and_success_values` at a concrete valid
frame carrying the one payload byte `0x02`. -/
theorem parseresponse_values_witness :
    1 ≤ ([0, 0, 255, 2, 254, 212, 2, 42, 0] : List Nat).getD 3 0 ∧
    (piconfc_I2C_parseresponse [0, 0, 255, 2, 254, 212, 2, 42, 0]).1 =
      if responseValid [0, 0, 255, 2, 254, 212, 2, 42, 0] then
        (([0, 0, 255, 2, 254, 212, 2, 42, 0] : List Nat).getD 3 0 + 255) % 256
      else 0 :=
  ⟨by decide, parseresponse_failure_and_success_values
    [0, 0, 255, 2, 254, 212, 2, 42, 0] (by decide)⟩

/-- Reads `rest.getD x` past a two-byte literal header. -/
theorem getD_cons2 (a b : Nat) (rest : List Nat) (x : Nat) (dflt : Nat) :
    (a :: b :: rest).getD (2 + x) dflt = rest.getD x dflt := by
  rw [show 2 + x = (x + 1) + 1 by omega]
  rw [List.getD_cons_succ, List.getD_cons_succ]

/-- Reads `rest.getD x` past a four-byte literal header. -/
theorem getD_cons4 (a b c d : Nat) (rest : List Nat) (x : Nat) (dflt : Nat) :
    (a :: b :: c :: d :: rest).getD (4 + x) dflt = rest.getD x dflt := by
  rw [show 4 + x = (((x + 1) + 1) + 1) + 1 by omega]
  rw [List.getD_cons_succ, List.getD_cons_succ, List.getD_cons_succ, List.getD_cons_succ]

/-- A byte-or with a low byte is plain addition. -/
theorem shiftLeft8_lor_eq_add (a b : Nat) (hb : b < 256) :
    (a <<< 8) ||| b = a * 256 + b := by
  rw [Nat.shiftLeft_eq]
  have h := Nat.mul_add_lt_is_or (i := 8) (show b < 2 ^ 8 by omega) a
  calc a * 2 ^ 8 ||| b = 2 ^ 8 * a ||| b := by rw [Nat.mul_comm]
    _ = 2 ^ 8 * a + b := h.symm
    _ = a * 256 + b := by omega

/-- Splitting a 16-bit value into its two bytes and recombining them as the
TLV parser does is the identity. -/
theorem byte_recombine (n : Nat) (h : n ≤ 65535) :
    ((n >>> 8) % 256) <<< 8 ||| (n &&& 255) = n := by
  have hdiv : n >>> 8 = n / 256 := Nat.shiftRight_eq_div_pow n 8
  have hmod : n &&& 255 = n % 256 := by
    have := Nat.and_pow_two_sub_one_eq_mod n 8
    norm_num at this
    exact this
  have hlt : n / 256 < 256 := by omega
  rw [hdiv, hmod, Nat.mod_eq_of_lt hlt,
    shiftLeft8_lor_eq_add _ _ (Nat.mod_lt _ (by omega))]
  omega

/-- Embedding of `struct TLV` (src/include/piconfc_NDEF.h).  The C field
`value_ptr` is the borrowed pointer `buffer + value_offset`; it carries no
information beyond `value_offset` and is represented by that offset. -/
structure TLV where
  buffer : List Nat
  buffer_len : Nat
  value_offset : Nat
  value_length : Nat
deriving DecidableEq

/-- Recursion core of `piconfc_NDEF_parseTLV` (src/src/piconfc_NDEF.c, lines
21-73).  The C function scans forward from `start` for the tag byte 0x03 and,
when the 1-byte-length form's terminator check fails, calls itself again from
one byte past the tag; the scan loop and that retry both advance the position
by one, so they are fused into a single recursion.  The decreasing argument
`fuel` is kept equal to `bufsize - start` at every call, so fuel exhaustion
(`fuel = 0`) coincides exactly with the scan-loop exit `start ≥ bufsize`
(tag not found). -/
def parseTLVAux (buffer : List Nat) (bufsize : Nat) : Nat → Nat → Option TLV
  | 0, _ => none
  | fuel + 1, start =>
    if buffer.getD start 0 = 0x03 then
      if start + 2 > bufsize then none
      else if buffer.getD (start + 1) 0 = 0xFF then
        let len := (buffer.getD (start + 2) 0) <<< 8 ||| (buffer.getD (start + 3) 0)
        if buffer.getD (start + 4 + len) 0 = 0xFE then
          some ⟨buffer, bufsize, start + 4, len⟩
        else none
      else
        let len := buffer.getD (start + 1) 0
        if buffer.getD (start + 2 + len) 0 = 0xFE then
          some ⟨buffer, bufsize, start + 2, len⟩
        else parseTLVAux buffer bufsize fuel (start + 1)
    else parseTLVAux buffer bufsize fuel (start + 1)

/-- Embedding of `piconfc_NDEF_parseTLV`: `none` models the C `false` return
(the partially-written out-struct is meaningless on failure per the
error-handling contract). -/
def piconfc_NDEF_parseTLV (buffer : List Nat) (bufsize start : Nat) : Option TLV :=
  parseTLVAux buffer bufsize (bufsize - start) start

/-- One evaluation step of `piconfc_NDEF_parseTLV` at an in-bounds scan
position, mirroring the body of the C function once the tag search is at
`start`. -/
theorem parseTLV_step (buffer : List Nat) (bufsize start : Nat) (h : start < bufsize) :
    piconfc_NDEF_parseTLV buffer bufsize start =
      if buffer.getD start 0 = 0x03 then
        if start + 2 > bufsize then none
        else if buffer.getD (start + 1) 0 = 0xFF then
          if buffer.getD
              (start + 4 + ((buffer.getD (start + 2) 0) <<< 8 ||| (buffer.getD (start + 3) 0)))
              0 = 0xFE then
            some ⟨buffer, bufsize, start + 4,
              (buffer.getD (start + 2) 0) <<< 8 ||| (buffer.getD (start + 3) 0)⟩
          else none
        else
          if buffer.getD (start + 2 + buffer.getD (start + 1) 0) 0 = 0xFE then
            some ⟨buffer, bufsize, start + 2, buffer.getD (start + 1) 0⟩
          else piconfc_NDEF_parseTLV buffer bufsize (start + 1)
      else piconfc_NDEF_parseTLV buffer bufsize (start + 1) := by
  unfold piconfc_NDEF_parseTLV
  rw [show bufsize - start = (bufsize - (start + 1)) + 1 by omega]
  rfl

/-- Embedding of `piconfc_NDEF_encodeTLV` (src/src/piconfc_NDEF.c, lines
75-103).  The first component is the C return value `i` (the number of bytes
written, 0 when the result buffer is too small), the second the bytes written
into `result`.  The two length-byte stores into `uint8_t` carry the C
conversions (`datasize >> 8` truncated to a byte, `datasize & 0x00FF`). -/
def piconfc_NDEF_encodeTLV (data : List Nat) (resultsize : Nat) : Nat × List Nat :=
  if data.length + 5 > resultsize then (0, [])
  else if 0xFF ≤ data.length then
    let out := 0x03 :: 0xFF :: (data.length >>> 8) % 256 :: (data.length &&& 0x00FF) ::
      (data ++ [0xFE])
    (out.length, out)
  else
    let out := 0x03 :: data.length :: (data ++ [0xFE])
    (out.length, out)

/-- Round-trip conclusion of claim C2 in the 1-byte length form, for any data
shorter than 255 bytes. -/
theorem tlv_roundtrip_case_short (data : List Nat) (hlt : data.length < 255)
    (resultsize : Nat) (hcap : data.length + 5 ≤ resultsize) :
    0 < (piconfc_NDEF_encodeTLV data resultsize).1 ∧
    (piconfc_NDEF_encodeTLV data resultsize).1 =
      (if 255 ≤ data.length then data.length + 5 else data.length + 3) ∧
    piconfc_NDEF_parseTLV (piconfc_NDEF_encodeTLV data resultsize).2
        (piconfc_NDEF_encodeTLV data resultsize).2.length 0 =
      some ⟨(piconfc_NDEF_encodeTLV data resultsize).2,
        (piconfc_NDEF_encodeTLV data resultsize).2.length,
        (if 255 ≤ data.length then 4 else 2), data.length⟩ ∧
    ((piconfc_NDEF_encodeTLV data resultsize).2.drop (if 255 ≤ data.length then 4 else 2)).take
        data.length = data := by
  have henc : piconfc_NDEF_encodeTLV data resultsize =
      (data.length + 3, 0x03 :: data.length :: (data ++ [0xFE])) := by
    unfold piconfc_NDEF_encodeTLV
    rw [if_neg (by omega), if_neg (by omega)]
    simp only [Prod.mk.injEq, List.length_cons, List.length_append, List.length_singleton,
      List.length_nil]
  have hc := eq_false (show ¬ 255 ≤ data.length by omega)
  rw [henc]
  dsimp only
  simp only [hc, if_false]
  have hlen3 : (0x03 :: data.length :: (data ++ [0xFE])).length = data.length + 3 := by
    simp only [List.length_cons, List.length_append, List.length_singleton, List.length_nil]
  rw [hlen3]
  refine ⟨by omega, by trivial, ?_, ?_⟩
  · rw [parseTLV_step _ _ _ (by omega : (0 : Nat) < data.length + 3)]
    simp only [Nat.zero_add]
    have gd0 : (0x03 :: data.length :: (data ++ [0xFE])).getD 0 0 = 0x03 := rfl
    have gd1 : (0x03 :: data.length :: (data ++ [0xFE])).getD 1 0 = data.length := rfl
    have gterm : (0x03 :: data.length :: (data ++ [0xFE])).getD (2 + data.length) 0 = 0xFE := by
      rw [getD_cons2, List.getD_append_right _ _ _ _ (Nat.le_refl _), Nat.sub_self]
      rfl
    rw [if_pos gd0, if_neg (by omega : ¬ (2 : Nat) > data.length + 3), gd1,
      if_neg (by omega : ¬ data.length = 0xFF), if_pos gterm]
  · rw [List.drop_succ_cons, List.drop_succ_cons, List.drop_zero]
    exact List.take_left data [0xFE]

/-- Round-trip conclusion of claim C2 in the 3-byte length form, for any data
of length between 255 and 65535 bytes. -/
theorem tlv_roundtrip_case_long (data : List Nat) (hge : 255 ≤ data.length)
    (hle : data.length ≤ 65535)
    (resultsize : Nat) (hcap : data.length + 5 ≤ resultsize) :
    0 < (piconfc_NDEF_encodeTLV data resultsize).1 ∧
    (piconfc_NDEF_encodeTLV data resultsize).1 =
      (if 255 ≤ data.length then data.length + 5 else data.length + 3) ∧
    piconfc_NDEF_parseTLV (piconfc_NDEF_encodeTLV data resultsize).2
        (piconfc_NDEF_encodeTLV data resultsize).2.length 0 =
      some ⟨(piconfc_NDEF_encodeTLV data resultsize).2,
        (piconfc_NDEF_encodeTLV data resultsize).2.length,
        (if 255 ≤ data.length then 4 else 2), data.length⟩ ∧
    ((piconfc_NDEF_encodeTLV data resultsize).2.drop (if 255 ≤ data.length then 4 else 2)).take
        data.length = data := by
  have henc : piconfc_NDEF_encodeTLV data resultsize =
      (data.length + 5, 0x03 :: 0xFF :: (data.length >>> 8) % 256 :: (data.length &&& 0x00FF) ::
        (data ++ [0xFE])) := by
    unfold piconfc_NDEF_encodeTLV
    rw [if_neg (by omega), if_pos hge]
    simp only [Prod.mk.injEq, List.length_cons, List.length_append, List.length_singleton,
      List.length_nil]
  have hc := eq_true hge
  rw [henc]
  dsimp only
  simp only [hc, if_true]
  have hlen5 : (0x03 :: 0xFF :: (data.length >>> 8) % 256 :: (data.length &&& 0x00FF) ::
      (data ++ [0xFE])).length = data.length + 5 := by
    simp only [List.length_cons, List.length_append, List.length_singleton, List.length_nil]
  rw [hlen5]
  refine ⟨by omega, by trivial, ?_, ?_⟩
  · rw [parseTLV_step _ _ _ (by omega : (0 : Nat) < data.length + 5)]
    simp only [Nat.zero_add]
    have gd0 : (0x03 :: 0xFF :: (data.length >>> 8) % 256 :: (data.length &&& 0x00FF) ::
        (data ++ [0xFE])).getD 0 0 = 0x03 := rfl
    have gd1 : (0x03 :: 0xFF :: (data.length >>> 8) % 256 :: (data.length &&& 0x00FF) ::
        (data ++ [0xFE])).getD 1 0 = 0xFF := rfl
    have gd2 : (0x03 :: 0xFF :: (data.length >>> 8) % 256 :: (data.length &&& 0x00FF) ::
        (data ++ [0xFE])).getD 2 0 = (data.length >>> 8) % 256 := rfl
    have gd3 : (0x03 :: 0xFF :: (data.length >>> 8) % 256 :: (data.length &&& 0x00FF) ::
        (data ++ [0xFE])).getD 3 0 = data.length &&& 0x00FF := rfl
    have gterm : (0x03 :: 0xFF :: (data.length >>> 8) % 256 :: (data.length &&& 0x00FF) ::
        (data ++ [0xFE])).getD (4 + data.length) 0 = 0xFE := by
      rw [getD_cons4, List.getD_append_right _ _ _ _ (Nat.le_refl _), Nat.sub_self]
      rfl
    rw [if_pos gd0, if_neg (by omega : ¬ (2 : Nat) > data.length + 5), if_pos gd1, gd2, gd3,
      byte_recombine data.length hle, if_pos gterm]
  · rw [List.drop_succ_cons, List.drop_succ_cons, List.drop_succ_cons, List.drop_succ_cons,
      List.drop_zero]
    exact List.take_left data [0xFE]

/-- C2: TLV round trip.  For every data buffer whose size lies in
{0, 1, 254, 255, 256, 65535} and an output buffer of capacity at least
`datasize + 5`, `encode_tlv` succeeds (nonzero write count, using the 1-byte
length form below 255 bytes and the 0xFF-marked 3-byte big-endian form at or
above), and `parse_tlv` applied to the encoded bytes succeeds and yields
exactly the original data bytes with the original length. -/
theorem tlv_roundtrip (data : List Nat)
    (hsize : data.length = 0 ∨ data.length = 1 ∨ data.length = 254 ∨ data.length = 255 ∨
      data.length = 256 ∨ data.length = 65535)
    (resultsize : Nat) (hcap : data.length + 5 ≤ resultsize) :
    0 < (piconfc_NDEF_encodeTLV data resultsize).1 ∧
    (piconfc_NDEF_encodeTLV data resultsize).1 =
      (if 255 ≤ data.length then data.length + 5 else data.length + 3) ∧
    piconfc_NDEF_parseTLV (piconfc_NDEF_encodeTLV data resultsize).2
        (piconfc_NDEF_encodeTLV data resultsize).2.length 0 =
      some ⟨(piconfc_NDEF_encodeTLV data resultsize).2,
        (piconfc_NDEF_encodeTLV data resultsize).2.length,
        (if 255 ≤ data.length then 4 else 2), data.length⟩ ∧
    ((piconfc_NDEF_encodeTLV data resultsize).2.drop (if 255 ≤ data.length then 4 else 2)).take
        data.length = data := by
  rcases hsize with h | h | h | h | h | h
  · exact tlv_roundtrip_case_short data (by omega) resultsize hcap
  · exact tlv_roundtrip_case_short data (by omega) resultsize hcap
  · exact tlv_roundtrip_case_short data (by omega) resultsize hcap
  · exact tlv_roundtrip_case_long data (by omega) (by omega) resultsize hcap
  · exact tlv_roundtrip_case_long data (by omega) (by omega) resultsize hcap
  · exact tlv_roundtrip_case_long data (by omega) (by omega) resultsize hcap

/-- Witness for `tlv_roundtrip` at the empty data buffer and capacity 5. -/
theorem tlv_roundtrip_witness :
    (([] : List Nat).length = 0 ∨ ([] : List Nat).length = 1 ∨ ([] : List Nat).length = 254 ∨
      ([] : List Nat).length = 255 ∨ ([] : List Nat).length = 256 ∨
      ([] : List Nat).length = 65535) ∧
    ([] : List Nat).length + 5 ≤ 5 ∧
    (0 < (piconfc_NDEF_encodeTLV [] 5).1 ∧
    (piconfc_NDEF_encodeTLV [] 5).1 =
      (if 255 ≤ ([] : List Nat).length then ([] : List Nat).length + 5
       else ([] : List Nat).length + 3) ∧
    piconfc_NDEF_parseTLV (piconfc_NDEF_encodeTLV [] 5).2
        (piconfc_NDEF_encodeTLV [] 5).2.length 0 =
      some ⟨(piconfc_NDEF_encodeTLV [] 5).2, (piconfc_NDEF_encodeTLV [] 5).2.length,
        (if 255 ≤ ([] : List Nat).length then 4 else 2), ([] : List Nat).length⟩ ∧
    ((piconfc_NDEF_encodeTLV [] 5).2.drop
        (if 255 ≤ ([] : List Nat).length then 4 else 2)).take ([] : List Nat).length = []) :=
  ⟨Or.inl rfl, by decide, tlv_roundtrip [] (Or.inl rfl) 5 (by decide)⟩

/-- C6: asymmetric TLV terminator retry.  When the scan stands on a 0x03 tag
whose length field is in the 1-byte form and the terminator byte at
`value_offset + value_length` is not 0xFE, `parse_tlv` retries the scan from
one byte past the tag; in the 3-byte (0xFF-marked) form the same terminator
mismatch makes it fail outright with no retry.  The third conjunct is the
skip-on-false-positive scenario: a spurious unterminated 0x03 at offset 0
followed by a valid TLV at offset 5 yields the second TLV's value (offset 7,
length 1) from `parse_tlv(buf, 0)`. -/
theorem tlv_terminator_retry_asymmetry (buffer : List Nat) (bufsize start : Nat)
    (hbs : start + 2 ≤ bufsize) (htag : buffer.getD start 0 = 0x03) :
    (buffer.getD (start + 1) 0 ≠ 0xFF →
      buffer.getD (start + 2 + buffer.getD (start + 1) 0) 0 ≠ 0xFE →
      piconfc_NDEF_parseTLV buffer bufsize start =
        piconfc_NDEF_parseTLV buffer bufsize (start + 1)) ∧
    (buffer.getD (start + 1) 0 = 0xFF →
      buffer.getD
          (start + 4 + ((buffer.getD (start + 2) 0) <<< 8 ||| (buffer.getD (start + 3) 0)))
          0 ≠ 0xFE →
      piconfc_NDEF_parseTLV buffer bufsize start = none) ∧
    piconfc_NDEF_parseTLV [0x03, 0x02, 0x00, 0x00, 0x00, 0x03, 0x01, 0xAB, 0xFE, 0x00] 10 0 =
      some ⟨[0x03, 0x02, 0x00, 0x00, 0x00, 0x03, 0x01, 0xAB, 0xFE, 0x00], 10, 7, 1⟩ := by
  refine ⟨?_, ?_, by decide⟩
  · intro hshort hterm
    rw [parseTLV_step _ _ _ (by omega), if_pos htag, if_neg (by omega : ¬ start + 2 > bufsize),
      if_neg hshort, if_neg hterm]
  · intro hlong hterm
    rw [parseTLV_step _ _ _ (by omega), if_pos htag, if_neg (by omega : ¬ start + 2 > bufsize),
      if_pos hlong, if_neg hterm]

/-- Witness for `tlv_terminator_retry_asymmetry`: the 1-byte-form retry at the
skip scenario's buffer, and the 3-byte-form outright failure at a buffer whose
0xFF-marked TLV of length 1 lacks its terminator. -/
theorem tlv_terminator_retry_witness :
    piconfc_NDEF_parseTLV [0x03, 0x02, 0x00, 0x00, 0x00, 0x03, 0x01, 0xAB, 0xFE, 0x00] 10 0 =
      piconfc_NDEF_parseTLV [0x03, 0x02, 0x00, 0x00, 0x00, 0x03, 0x01, 0xAB, 0xFE, 0x00] 10 1 ∧
    piconfc_NDEF_parseTLV [0x03, 0xFF, 0x00, 0x01, 0xAA, 0x00] 6 0 = none :=
  ⟨(tlv_terminator_retry_asymmetry
      [0x03, 0x02, 0x00, 0x00, 0x00, 0x03, 0x01, 0xAB, 0xFE, 0x00] 10 0
      (by decide) (by decide)).1 (by decide) (by decide),
   (tlv_terminator_retry_asymmetry [0x03, 0xFF, 0x00, 0x01, 0xAA, 0x00] 6 0
      (by decide) (by decide)).2.1 (by decide) (by decide)⟩

/-- Two's-complement reinterpretation of a 32-bit value, used where the C code
assembles a 4-byte big-endian quantity into a signed 32-bit `int`. -/
def toInt32 (n : Nat) : Int :=
  if n % 4294967296 < 2147483648 then ((n % 4294967296 : Nat) : Int)
  else ((n % 4294967296 : Nat) : Int) - 4294967296

/-- Enumerator `TNF_EMPTY` of `enum TNF` (src/include/piconfc_NDEF.h); the
enum is packed into a byte, so the enumerators are modelled as naturals. -/
def TNF_EMPTY : Nat := 0

/-- Enumerator `TNF_WELLKNOWN`. -/
def TNF_WELLKNOWN : Nat := 1

/-- Enumerator `TNF_MIME`. -/
def TNF_MIME : Nat := 2

/-- Enumerator `TNF_ABSURI`. -/
def TNF_ABSURI : Nat := 3

/-- Enumerator `TNF_EXTERNAL`. -/
def TNF_EXTERNAL : Nat := 4

/-- Enumerator `TNF_UNKNOWN`. -/
def TNF_UNKNOWN : Nat := 5

/-- Enumerator `TNF_UNCHANGED`. -/
def TNF_UNCHANGED : Nat := 6

/-- Enumerator `TNF_RESERVED`. -/
def TNF_RESERVED : Nat := 7

/-- Embedding of `NDEFRecord` (src/include/piconfc_NDEF.h).  The C field
`data_length` is an `int` and can end up negative after the 4-byte big-endian
assembly in `piconfc_NDEF_parseRecord` (first length byte ≥ 0x80), so it is
modelled as `Int`; the remaining fields only ever hold nonnegative values. -/
structure NDEFRecord where
  buffer : List Nat
  tnf : Nat
  data_offset : Nat
  data_length : Int
  id_length : Nat
  id_offset : Nat
  type_length : Nat
  type_offset : Nat
deriving DecidableEq

/-- Embedding of `piconfc_NDEF_parseRecord` (src/src/piconfc_NDEF.c, lines
199-273).  `none` models the C return value -1; on success the first
component is the returned next offset and the second the populated record.
The C pointer `ptr` advances by a field's length only inside that field's
`len > 0` block, but advancing by zero is the identity, so the type and id
advances are written unconditionally; the payload advance stays conditional
because a negative (as 32-bit `int`) payload length skips its whole block. -/
def piconfc_NDEF_parseRecord (buffer : List Nat) (bufsize offset : Nat) :
    Option (Nat × NDEFRecord) :=
  if offset + 4 ≥ bufsize then none
  else
    let flags := buffer.getD offset 0
    let sr := flags &&& 0x10 ≠ 0
    let il := flags &&& 0x08 ≠ 0
    let tnf := flags &&& 7
    let payload_type_len := buffer.getD (offset + 1) 0
    let payload_data_len : Int :=
      if sr then (buffer.getD (offset + 2) 0 : Int)
      else toInt32 ((buffer.getD (offset + 2) 0) <<< 24 ||| (buffer.getD (offset + 3) 0) <<< 16 |||
        (buffer.getD (offset + 4) 0) <<< 8 ||| (buffer.getD (offset + 5) 0))
    let ptr0 := if sr then offset + 3 else offset + 6
    let payload_id_len := if il then buffer.getD ptr0 0 else 0
    let ptr1 := if il then ptr0 + 1 else ptr0
    let payload_type_offset := if 0 < payload_type_len then ptr1 else 0
    let ptr2 := ptr1 + payload_type_len
    if 0 < payload_type_len ∧ ptr1 + payload_type_len > bufsize then none
    else
      let payload_id_offset := if 0 < payload_id_len then ptr2 else 0
      let ptr3 := ptr2 + payload_id_len
      if 0 < payload_id_len ∧ ptr2 + payload_id_len > bufsize then none
      else
        let payload_data_offset := if 0 < payload_data_len then ptr3 else 0
        if 0 < payload_data_len ∧ (ptr3 : Int) + payload_data_len > (bufsize : Int) then none
        else
          some (if 0 < payload_data_len then ptr3 + payload_data_len.toNat else ptr3,
            ⟨buffer, tnf, payload_data_offset, payload_data_len,
              payload_id_len, payload_id_offset, payload_type_len, payload_type_offset⟩)

/-- Indices of `buffer` that `piconfc_NDEF_parseRecord` reads on the same
control path, in program order: the flags byte (read for SR, IL and TNF), the
type length, the one- or four-byte payload length, and the id length byte
when IL is set.  The later bounds-check comparisons read no buffer bytes. -/
def piconfc_NDEF_parseRecordReads (buffer : List Nat) (bufsize offset : Nat) : List Nat :=
  if offset + 4 ≥ bufsize then []
  else
    let flags := buffer.getD offset 0
    let sr := flags &&& 0x10 ≠ 0
    let il := flags &&& 0x08 ≠ 0
    let payloadLenReads :=
      if sr then [offset + 2] else [offset + 2, offset + 3, offset + 4, offset + 5]
    let ptr0 := if sr then offset + 3 else offset + 6
    let idReads := if il then [ptr0] else []
    offset :: (offset + 1) :: (payloadLenReads ++ idReads)

/-- Loop of `piconfc_NDEF_messageLen` (src/src/piconfc_NDEF.c, lines 149-195),
structurally recursive on `fuel`.  Every iteration advances `i` by at least 3,
so with `fuel` initialised to `bufsize` the invariant `bufsize - i ≤ fuel`
holds at every call and the `fuel = 0` arm (returning `total`) is only reached
when `i ≥ bufsize`, which is exactly the loop's own exit value. -/
def messageLenAux (buffer : List Nat) (bufsize : Nat) : Nat → Nat → Nat → Nat
  | 0, _, total => total
  | fuel + 1, i, total =>
    if i < bufsize then
      if buffer.getD i 0 &&& 0x40 ≠ 0 then total
      else
        let flags := buffer.getD i 0
        let short_record := flags &&& 0x10 ≠ 0
        let has_id := flags &&& 0x08 ≠ 0
        let type_len := buffer.getD (i + 1) 0
        let payload_len :=
          if short_record then buffer.getD (i + 2) 0
          else (buffer.getD (i + 2) 0) <<< 24 ||| (buffer.getD (i + 3) 0) <<< 16 |||
            (buffer.getD (i + 4) 0) <<< 8 ||| (buffer.getD (i + 5) 0)
        let afterLen := if short_record then i + 3 else i + 6
        let id_len := if has_id then buffer.getD afterLen 0 else 0
        let afterId := if has_id then afterLen + 1 else afterLen
        messageLenAux buffer bufsize fuel (afterId + type_len + id_len + payload_len) (total + 1)
    else total

/-- Embedding of `piconfc_NDEF_messageLen` (src/src/piconfc_NDEF.c, lines
138-197): returns 1 for an empty buffer or when the first record carries the
Message-End bit 0x40, and otherwise counts records until a record with
Message-End is reached (that record is not counted) or the buffer ends. -/
def piconfc_NDEF_messageLen (buffer : List Nat) (bufsize : Nat) : Nat :=
  if bufsize < 1 ∨ buffer.getD 0 0 &&& 0x40 ≠ 0 then 1
  else messageLenAux buffer bufsize bufsize 0 0

/-- Record-collection loop of `piconfc_NDEF_parseMessage` (lines 119-129),
structurally recursive on the remaining record budget
`expected_records - records_parsed`, which the C loop decrements on every
iteration. -/
def parseMessageLoop (buffer : List Nat) (bufsize : Nat) : Nat → Nat → List NDEFRecord
  | _, 0 => []
  | offset, remaining + 1 =>
    if offset ≤ bufsize then
      match piconfc_NDEF_parseRecord buffer bufsize offset with
      | none => []
      | some (new_offset, record) =>
          record :: parseMessageLoop buffer bufsize new_offset remaining
    else []

/-- Embedding of `piconfc_NDEF_parseMessage` (src/src/piconfc_NDEF.c, lines
105-136); `malloc` is assumed to succeed (its failure path is outside the
claims).  `none` models the early `return 0` taken when
`piconfc_NDEF_messageLen` reports zero records — before anything is
allocated or decoded — while `some records` carries the records actually
decoded (the C return value is their number). -/
def piconfc_NDEF_parseMessage (buffer : List Nat) (bufsize : Nat) :
    Option (List NDEFRecord) :=
  let expected_records := piconfc_NDEF_messageLen buffer bufsize
  if expected_records = 0 then none
  else some (parseMessageLoop buffer bufsize 0 expected_records)

/-- Embedding of `URIPrefixes` (src/src/piconfc_NDEF.c, lines 11-19): the
36-entry read-only prefix table indexed 0x00-0x23. -/
def URIPrefixes : List String :=
  ["", "http://www.", "https://www.", "http://", "https://", "tel:",
   "mailto:", "ftp://anonymous:anonymous@", "ftp://ftp.", "ftps://",
   "sftp://", "smb://", "nfs://", "ftp://", "dav://", "news:",
   "telnet://", "imap:", "rtsp://", "urn:", "pop:", "sip:", "sips:",
   "tftp:", "btspp://", "btl2cap://", "btgoep://", "tcpobex://",
   "irdaobex://", "file://", "urn:epc:id:", "urn:epc:tag:",
   "urn:epc:pat:", "urn:epc:raw:", "urn:epc:", "urn:nfc:"]

/-- Copy phase of `piconfc_NDEF_readPayloadString` (src/src/piconfc_NDEF.c,
lines 376-408): the prefix characters followed by `data_max` payload bytes
(each an 8-bit character) starting at `data_head`; the payload's leading
prefix byte is skipped exactly when the selected prefix is nonempty
(`prefix_len > 0`), as in the C code. -/
def payloadStringBytes (record : NDEFRecord) (pfx : String) : String :=
  let data_head := if 0 < pfx.length then record.data_offset + 1 else record.data_offset
  let data_max : Int := if 0 < pfx.length then record.data_length - 1 else record.data_length
  String.mk (pfx.data ++ (List.range data_max.toNat).map
    (fun j => Char.ofNat (record.buffer.getD (data_head + j) 0)))

/-- Embedding of `piconfc_NDEF_readPayloadString` (src/src/piconfc_NDEF.c,
lines 362-411); `malloc` is assumed to succeed, so `none` models exactly the
unsupported-prefix failure: a well-known record of type length 1 and type
byte 'U' (85) whose first payload byte is at least 36. -/
def piconfc_NDEF_readPayloadString (record : NDEFRecord) : Option String :=
  if record.tnf = TNF_WELLKNOWN ∧ record.type_length = 1 ∧
      record.buffer.getD record.type_offset 0 = 85 then
    if 36 ≤ record.buffer.getD record.data_offset 0 then none
    else some (payloadStringBytes record
      (URIPrefixes.getD (record.buffer.getD record.data_offset 0) ""))
  else some (payloadStringBytes record "")

/-- C3 at the failing input: a buffer holding two well-formed short records —
`[0x10, 0x00, 0x00]` (no Message-End) followed by `[0x50, 0x00, 0x00]`
(Message-End set) — so the claim's `n` is 2, yet `piconfc_NDEF_messageLen`
returns 1: its loop breaks on the Message-End record before counting it, so
the terminal record is not counted. -/
theorem messageLen_stops_before_me_record :
    piconfc_NDEF_messageLen [0x10, 0x00, 0x00, 0x50, 0x00, 0x00] 6 = 1 := by decide

/-- C8: `message_record_count` returns exactly 1 both for an empty buffer
(`bufsize < 1`) and for every buffer whose first record has the Message-End
bit 0x40 set in its flags byte. -/
theorem messageLen_quirk (buffer : List Nat) (bufsize : Nat)
    (h : bufsize < 1 ∨ buffer.getD 0 0 &&& 0x40 ≠ 0) :
    piconfc_NDEF_messageLen buffer bufsize = 1 := by
  unfold piconfc_NDEF_messageLen
  rw [if_pos h]

/-- Witness for `messageLen_quirk` at a one-record buffer whose first flags
byte carries the Message-End bit. -/
theorem messageLen_quirk_witness :
    ((1 : Nat) < 1 ∨ ([0x40] : List Nat).getD 0 0 &&& 0x40 ≠ 0) ∧
    piconfc_NDEF_messageLen [0x40] 1 = 1 :=
  ⟨by decide, messageLen_quirk [0x40] 1 (by decide)⟩

/-- The record-counting loop never returns less than its running total. -/
theorem messageLenAux_le (buffer : List Nat) (bufsize : Nat) :
    ∀ fuel i total, total ≤ messageLenAux buffer bufsize fuel i total := by
  intro fuel
  induction fuel with
  | zero => intro i total; exact Nat.le_refl _
  | succ f ih =>
    intro i total
    simp only [messageLenAux]
    split_ifs <;> first
      | exact Nat.le_refl _
      | exact Nat.le_trans (Nat.le_succ _) (ih _ _)

/-- C10 (implicit): `message_record_count` returns at least 1 for every input
buffer — empty, malformed or non-terminated alike — so it can never return 0,
and consequently `parse_message`'s zero-record early-return branch (modelled
by the `none` result) is never taken: `parse_message` always proceeds to
allocate at least one record slot. -/
theorem messageLen_ge_one_and_parseMessage_allocates (buffer : List Nat) (bufsize : Nat) :
    1 ≤ piconfc_NDEF_messageLen buffer bufsize ∧
    piconfc_NDEF_parseMessage buffer bufsize ≠ none := by
  have hmain : 1 ≤ piconfc_NDEF_messageLen buffer bufsize := by
    unfold piconfc_NDEF_messageLen
    split_ifs with h
    · exact Nat.le_refl 1
    · obtain ⟨h1, h2⟩ := not_or.mp h
      obtain ⟨b, hb⟩ : ∃ b, bufsize = b + 1 := ⟨bufsize - 1, by omega⟩
      rw [hb]
      simp only [messageLenAux]
      rw [if_pos (by omega : 0 < b + 1), if_neg h2]
      exact Nat.le_trans (by omega) (messageLenAux_le buffer (b + 1) b _ 1)
  refine ⟨hmain, ?_⟩
  unfold piconfc_NDEF_parseMessage
  rw [if_neg (by omega : ¬ piconfc_NDEF_messageLen buffer bufsize = 0)]
  exact Option.some_ne_none _

/-- C4 at the failing input `buffer = [00 00 00 01 00]`, `bufsize = 5`,
`offset = 0`: a non-short record whose declared (4-byte big-endian) payload
length 0x00010000 far exceeds the remaining buffer.  `parse_record` does fail
as the claim demands, but while assembling that payload length it reads
buffer index 5 — equal to `bufsize`, hence outside `[0, bufsize)` — because
the 4-byte header reads are not bounds-checked: the claimed memory safety
does not hold. -/
theorem parseRecord_reads_out_of_bounds :
    piconfc_NDEF_parseRecord [0x00, 0x00, 0x00, 0x01, 0x00] 5 0 = none ∧
    5 ∈ piconfc_NDEF_parseRecordReads [0x00, 0x00, 0x00, 0x01, 0x00] 5 0 ∧
    ¬ (5 : Nat) < 5 := by decide

/-- C5 counterexample: a well-formed minimal short record (SR set, type length
1, payload length 0, type byte 'U') occupying exactly the 4 remaining bytes
at the end of the buffer.  The claim says `parse_record` does not fail here
("fails if fewer than 4 bytes remain"), but the code's guard is
`offset + 4 >= bufsize`, which rejects exactly-4 remaining bytes. -/
theorem parseRecord_minimal_record_at_end_fails :
    piconfc_NDEF_parseRecord [0x11, 0x01, 0x00, 0x55] 4 0 = none := by decide

/-- Failure condition of `parse_record` as the amended claim states it: four
or fewer bytes remain from `offset`, or a declared field of positive length —
type, id, or payload, the payload length compared as the signed 32-bit value
the C `int` arithmetic produces — would run past the end of the buffer.
Field ends sit where the wire layout places them: after the header (flags,
type length, 1- or 4-byte payload length per SR, optional id length per IL)
come the type, id and payload fields in that order. -/
def parseRecordFailsSpec (buffer : List Nat) (bufsize offset : Nat) : Prop :=
  bufsize < offset + 5 ∨
  (let flags := buffer.getD offset 0
   let sr := flags &&& 0x10 ≠ 0
   let il := flags &&& 0x08 ≠ 0
   let typeLen := buffer.getD (offset + 1) 0
   let payLen : Int :=
     if sr then (buffer.getD (offset + 2) 0 : Int)
     else toInt32 ((buffer.getD (offset + 2) 0) <<< 24 ||| (buffer.getD (offset + 3) 0) <<< 16 |||
       (buffer.getD (offset + 4) 0) <<< 8 ||| (buffer.getD (offset + 5) 0))
   let idLen := if il then buffer.getD (if sr then offset + 3 else offset + 6) 0 else 0
   let headerEnd := (if sr then offset + 3 else offset + 6) + (if il then 1 else 0)
   let typeEnd := headerEnd + typeLen
   let idEnd := typeEnd + idLen
   (0 < typeLen ∧ bufsize < typeEnd) ∨ (0 < idLen ∧ bufsize < idEnd) ∨
     (0 < payLen ∧ (bufsize : Int) < (idEnd : Int) + payLen))

/-- C5 (amended): `parse_record` fails exactly when four or fewer bytes remain
from the given offset (`offset + 4 ≥ bufsize`), or when a declared field —
type, id, or payload, the payload length compared as a signed 32-bit value —
has positive length and would run past the end of the buffer; in particular a
well-formed minimal record occupying exactly the 4 remaining bytes at the end
of the buffer is rejected (see `parseRecord_minimal_record_at_end_fails`). -/
theorem parseRecord_fails_iff (buffer : List Nat) (bufsize offset : Nat) :
    piconfc_NDEF_parseRecord buffer bufsize offset = none ↔
      parseRecordFailsSpec buffer bufsize offset := by
  unfold piconfc_NDEF_parseRecord parseRecordFailsSpec
  by_cases h0 : offset + 4 ≥ bufsize
  · rw [if_pos h0]
    exact ⟨fun _ => Or.inl (by omega), fun _ => rfl⟩
  · rw [if_neg h0]
    by_cases hsr : buffer.getD offset 0 &&& 0x10 ≠ 0 <;>
      by_cases hil : buffer.getD offset 0 &&& 0x08 ≠ 0 <;>
        simp only [hsr, hil, not_false_eq_true, not_true_eq_false, ite_true, ite_false,
          if_true, if_false] <;>
          split_ifs <;> first
            | exact ⟨fun _ => by omega, fun _ => by trivial⟩
            | exact ⟨fun h => h.elim, fun hd => absurd hd (by omega)⟩

/-- C7 counterexample: a well-known 'U' record whose first payload byte is the
prefix code 0x00 (the empty prefix "").  The claim says the result is the
prefix entry concatenated with the remaining payload bytes — here `"" ++ "a"`
= `"a"` — but the code only skips the prefix byte when the selected prefix is
nonempty, so the 0x00 byte stays in the output. -/
theorem readPayloadString_zero_prefix_kept :
    piconfc_NDEF_readPayloadString ⟨[0x55, 0x00, 0x61], 1, 1, 2, 0, 0, 1, 0⟩ =
      some (String.mk [Char.ofNat 0x00, 'a']) ∧
    String.mk [Char.ofNat 0x00, 'a'] ≠ "a" := by decide

/-- Every non-zero prefix code below 36 selects a nonempty prefix string. -/
theorem uriPrefix_nonempty (c : Nat) (h1 : 1 ≤ c) (h2 : c < 36) :
    0 < (URIPrefixes.getD c "").length := by
  interval_cases c <;> decide

/-- C7 (amended): on a record whose type-name-format is WellKnown, type
length 1 and type byte 'U', `read_payload_as_uri` fails when the first
payload byte is at least 36; when that byte is 1–35 it returns the prefix
table entry for the byte followed by the remaining payload bytes; when the
byte is 0 (the empty prefix) the payload is returned verbatim, the 0x00
prefix byte included, because the prefix-byte skip only happens for a
nonempty prefix.  For every record of any other shape the same entry point
returns the raw payload bytes verbatim with no prefix. -/
theorem readPayloadString_characterization (record : NDEFRecord) :
    (record.tnf = TNF_WELLKNOWN ∧ record.type_length = 1 ∧
        record.buffer.getD record.type_offset 0 = 85 →
      (36 ≤ record.buffer.getD record.data_offset 0 →
        piconfc_NDEF_readPayloadString record = none) ∧
      (∀ c : Nat, record.buffer.getD record.data_offset 0 = c → 1 ≤ c → c < 36 →
        piconfc_NDEF_readPayloadString record =
          some (String.mk ((URIPrefixes.getD c "").data ++
            (List.range ((record.data_length - 1).toNat)).map
              (fun j => Char.ofNat (record.buffer.getD (record.data_offset + 1 + j) 0))))) ∧
      (record.buffer.getD record.data_offset 0 = 0 →
        piconfc_NDEF_readPayloadString record =
          some (String.mk ((List.range (record.data_length.toNat)).map
            (fun j => Char.ofNat (record.buffer.getD (record.data_offset + j) 0)))))) ∧
    (¬(record.tnf = TNF_WELLKNOWN ∧ record.type_length = 1 ∧
        record.buffer.getD record.type_offset 0 = 85) →
      piconfc_NDEF_readPayloadString record =
        some (String.mk ((List.range (record.data_length.toNat)).map
          (fun j => Char.ofNat (record.buffer.getD (record.data_offset + j) 0))))) := by
  refine ⟨fun huri => ⟨?_, ?_, ?_⟩, fun hnot => ?_⟩
  · intro hge
    unfold piconfc_NDEF_readPayloadString
    rw [if_pos huri, if_pos hge]
  · intro c hc h1 h2
    have hpos := uriPrefix_nonempty c h1 h2
    unfold piconfc_NDEF_readPayloadString
    rw [if_pos huri, if_neg (show ¬ 36 ≤ record.buffer.getD record.data_offset 0 by omega),
      hc]
    simp only [payloadStringBytes]
    rw [if_pos hpos, if_pos hpos]
  · intro hzero
    unfold piconfc_NDEF_readPayloadString
    rw [if_pos huri, if_neg (show ¬ 36 ≤ record.buffer.getD record.data_offset 0 by omega),
      hzero]
    have h0 : URIPrefixes.getD 0 "" = "" := rfl
    rw [h0]
    simp only [payloadStringBytes]
    rw [if_neg (by decide : ¬ (0 : Nat) < ("" : String).length),
      if_neg (by decide : ¬ (0 : Nat) < ("" : String).length)]
    rfl
  · unfold piconfc_NDEF_readPayloadString
    rw [if_neg hnot]
    simp only [payloadStringBytes]
    rw [if_neg (by decide : ¬ (0 : Nat) < ("" : String).length),
      if_neg (by decide : ¬ (0 : Nat) < ("" : String).length)]
    rfl

/-- Witness for `readPayloadString_characterization`: the claim's own example,
payload `[0x04, 'g', 'o', 'o', 'g', 'l', 'e', '.', 'c', 'o', 'm']` on a
well-known 'U' record, yields "https://google.com". -/
theorem readPayloadString_uri_witness :
    piconfc_NDEF_readPayloadString
        ⟨[0x55, 0x04, 0x67, 0x6F, 0x6F, 0x67, 0x6C, 0x65, 0x2E, 0x63, 0x6F, 0x6D],
          1, 1, 11, 0, 0, 1, 0⟩ = some "https://google.com" := by
  have h := ((readPayloadString_characterization
      ⟨[0x55, 0x04, 0x67, 0x6F, 0x6F, 0x67, 0x6C, 0x65, 0x2E, 0x63, 0x6F, 0x6D],
        1, 1, 11, 0, 0, 1, 0⟩).1 (by decide)).2.1 4 (by decide) (by decide) (by decide)
  rw [h]
  decide

/-- Witness for `messageLen_ge_one_and_parseMessage_allocates` at the empty
buffer. -/
theorem messageLen_ge_one_witness :
    1 ≤ piconfc_NDEF_messageLen [] 0 ∧ piconfc_NDEF_parseMessage [] 0 ≠ none :=
  messageLen_ge_one_and_parseMessage_allocates [] 0
